import Mathlib

/-!
Shallow embedding of the `finapps` stocks application
(src/finapps/stocks/dao.py and src/finapps/stocks/service.py).

Modelling choices, kept uniform below:
- A calendar date is its epoch-day number (`Int`); `datetime.timedelta(days=k)`
  subtraction is integer subtraction, and the `strftime` formats used by the
  code ('%Y-%m-%d' and '%a %d %b %y') are implemented from the civil-calendar
  conversion on epoch days.
- A pandas `DataFrame` of market rows is a `List MarketBar`.  The dao's schema
  (dao.py lines 14-22) types `MKT_CLOSE`/`MKT_OPEN`/`MKT_HIGH`/`MKT_LOW` as
  float64 and `MKT_VOLUME` as int64: closes are modelled as `ℚ` (exact
  idealisation of float64; the spec treats all bar values as nonzero for a
  real trading day, and theorems about cell contents carry that hypothesis
  where the float/rational idealisation needs it) and volumes as `Int`.
- Python values that may be `None` are modelled as `Option`: `maybe_get_data`
  has result type `Option DataFrame` because `digest` tests its results with
  `is None` (service.py line 108), and the embedding must be able to state
  that the test never succeeds.
- Failures are explicit: `PyErr` lists the exceptions the digest code can
  construct or trigger (`DigestError`; `IndexError` from `.values[0]` on an
  empty frame; `TypeError` from `json.dumps(config)`, whose values are
  `datetime.date` objects and therefore not JSON serialisable, and from
  subscripting `None`; `AttributeError` from `None.empty`).
- `digest` also returns the list of store queries (symbol, lo_date, hi_date)
  it performs, in order, mirroring the `dao.select` calls issued by its
  `maybe_get_data` calls; this makes "no further store queries" statable.
-/

/-- Python-level outcomes of `StockService.digest` other than a report.
`digestError` carries the message string; the other constructors stand for
the builtin exception types the code can raise. -/
inductive PyErr where
  | digestError (msg : String)
  | indexError
  | typeError
  | attributeError
deriving DecidableEq, Repr

/-- One OHLCV row for one symbol and one market date, after the dao schema
cast (dao.py lines 14-22): float64 prices as `ℚ`, int64 volume as `Int`,
the date as its epoch-day number. -/
structure MarketBar where
  MKT_SYMBOL : String
  MKT_DATE : Int
  MKT_OPEN : ℚ
  MKT_HIGH : ℚ
  MKT_LOW : ℚ
  MKT_CLOSE : ℚ
  MKT_VOLUME : Int
deriving DecidableEq, Repr

/-- The MKT_DATA table: its rows, in storage order. -/
abbrev Store := List MarketBar

/-- A pandas DataFrame of market rows. -/
abbrev DataFrame := List MarketBar

/-- One `dao.select` call as the caller observes it: (symbol, lo_date, hi_date). -/
abbrev Query := String × Int × Int

/-! ## Calendar arithmetic (datetime.date on epoch days) -/

/-- Civil date (year, month, day) of an epoch-day number; the standard
era/day-of-era conversion, with floor division so the function is total. -/
def civilFromDays (z0 : Int) : Int × Int × Int :=
  let z := z0 + 719468
  let era := Int.fdiv z 146097
  let doe := z - era * 146097
  let yoe := Int.fdiv (doe - Int.fdiv doe 1460 + Int.fdiv doe 36524 - Int.fdiv doe 146096) 365
  let y := yoe + era * 400
  let doy := doe - (365 * yoe + Int.fdiv yoe 4 - Int.fdiv yoe 100)
  let mp := Int.fdiv (5 * doy + 2) 153
  let dd := doy - Int.fdiv (153 * mp + 2) 5 + 1
  let mm := mp + (if mp < 10 then 3 else -9)
  (y + (if mm ≤ 2 then 1 else 0), mm, dd)

/-- Epoch-day number of a civil date (inverse of `civilFromDays`). -/
def daysFromCivil (y m d : Int) : Int :=
  let y1 := y - (if m ≤ 2 then 1 else 0)
  let era := Int.fdiv y1 400
  let yoe := y1 - era * 400
  let mp := m + (if 2 < m then -3 else 9)
  let doy := Int.fdiv (153 * mp + 2) 5 + d - 1
  let doe := yoe * 365 + Int.fdiv yoe 4 - Int.fdiv yoe 100 + doy
  era * 146097 + doe - 719468

/-- Two-digit zero padding, as strftime's %d, %m, %y produce. -/
def pad2 (n : Int) : String :=
  if n < 10 then "0" ++ toString n else toString n

/-- strftime('%Y-%m-%d') of an epoch day. -/
def fmtYmd (z : Int) : String :=
  let c := civilFromDays z
  toString c.1 ++ "-" ++ pad2 c.2.1 ++ "-" ++ pad2 c.2.2

/-- strftime('%a') weekday abbreviation: epoch day 0 (1970-01-01) is a Thursday. -/
def weekdayAbbrev (z : Int) : String :=
  ["Mon", "Tue", "Wed", "Thu", "Fri", "Sat", "Sun"].getD (Int.emod (z + 3) 7).toNat "Mon"

/-- strftime('%b') month abbreviation. -/
def monthAbbrev (m : Int) : String :=
  ["Jan", "Feb", "Mar", "Apr", "May", "Jun",
   "Jul", "Aug", "Sep", "Oct", "Nov", "Dec"].getD (m - 1).toNat "Jan"

/-- strftime('%a %d %b %y') of an epoch day, the as-of column header built at
service.py line 154 (for example "Tue 02 Jan 24"). -/
def fmtDateLabel (z : Int) : String :=
  let c := civilFromDays z
  weekdayAbbrev z ++ " " ++ pad2 c.2.2 ++ " " ++ monthAbbrev c.2.1 ++ " "
    ++ pad2 (Int.emod c.1 100)

/-! ## Numeric formatting -/

/-- Python `int()` applied to a numeric value: truncation toward zero. -/
def pyInt (q : ℚ) : Int :=
  if q < 0 then ⌈q⌉ else ⌊q⌋

/-- Rounding to the nearest integer with ties to even, as Python's `'{:,.0f}'`
float formatting rounds. -/
def roundHalfEven (q : ℚ) : Int :=
  let f := ⌊q⌋
  let r := q - f
  if r < 1 / 2 then f
  else if 1 / 2 < r then f + 1
  else if f % 2 = 0 then f else f + 1

/-- Comma separation of a reversed digit string every three digits, the
grouping of Python's `'{:,.0f}'` format. -/
def group3 : List Char → List Char
  | a :: b :: c :: d :: rest => a :: b :: c :: ',' :: group3 (d :: rest)
  | l => l

/-- Thousands-grouped digits of a natural number. -/
def commaGroup (n : Nat) : String :=
  String.mk ((group3 (toString n).data.reverse).reverse)

/-- Python `f'{value:,.0f}'`: round half-to-even to an integer, then group
the digits with commas (service.py lines 88 and 155). -/
def fmtThousands (q : ℚ) : String :=
  let n := roundHalfEven q
  if n < 0 then "-" ++ commaGroup (-n).toNat else commaGroup n.toNat

/-- Modelled from the spec: the external `ballpark.business` large-number
abbreviation used for volumes (service.py lines 86 and 156) is not part of
this repository; the spec describes it as "a human-readable magnitude
abbreviation (e.g., "1.2M", "430K")" and the end-to-end scenario shows
1,000,000 → "1M" and 500,000 → "500K".  One truncated significant decimal
with K/M/B suffixes realises those examples. -/
def ballpark.business (v : ℚ) : String :=
  let n := roundHalfEven v
  let sign := if n < 0 then "-" else ""
  let na := n.natAbs
  let scaled := fun (unit : Nat) (suffix : String) =>
    let q := n.natAbs * 10 / unit
    if q % 10 == 0 then toString (q / 10) ++ suffix
    else toString (q / 10) ++ "." ++ toString (q % 10) ++ suffix
  if na < 1000 then sign ++ toString na
  else if na < 1000000 then sign ++ scaled 1000 "K"
  else if na < 1000000000 then sign ++ scaled 1000000 "M"
  else sign ++ scaled 1000000000 "B"

/-! ## MarketDataDAO (dao.py) -/

/-- dao.py lines 24-45: inclusive range select on (symbol, date). -/
def MarketDataDAO.select (store : Store) (symbol : String) (lo_date hi_date : Int) :
    DataFrame :=
  store.filter fun b =>
    b.MKT_SYMBOL == symbol && decide (lo_date ≤ b.MKT_DATE) && decide (b.MKT_DATE ≤ hi_date)

/-- The conflict test of the insert's `ON CONFLICT (MKT_SYMBOL,MKT_DATE)`. -/
def sameKey (r b : MarketBar) : Bool :=
  r.MKT_SYMBOL == b.MKT_SYMBOL && r.MKT_DATE == b.MKT_DATE

/-- The `DO UPDATE SET` of dao.py lines 84-89: overwrite the OHLCV fields of
the conflicting row in place. -/
def updateRow (r b : MarketBar) : MarketBar :=
  { r with MKT_OPEN := b.MKT_OPEN, MKT_HIGH := b.MKT_HIGH, MKT_LOW := b.MKT_LOW,
           MKT_CLOSE := b.MKT_CLOSE, MKT_VOLUME := b.MKT_VOLUME }

/-- Upsert of one row: update the row with the same (symbol, date) key in
place if one exists, else append. -/
def upsertOne (b : MarketBar) (store : Store) : Store :=
  if store.any (fun r => sameKey r b) then
    store.map fun r => if sameKey r b then updateRow r b else r
  else
    store ++ [b]

/-- dao.py lines 62-98: batch upsert, one row at a time in frame order
(`execute_batch`).  The schema-shape guard of lines 63-65 is enforced here by
the `MarketBar` type itself. -/
def MarketDataDAO.insert (df : DataFrame) (store : Store) : Store :=
  df.foldl (fun s r => upsertOne r s) store

/-- The table's primary-key invariant: at most one row per (symbol, date). -/
def KeyUnique (store : Store) : Prop :=
  (store.map fun b => (b.MKT_SYMBOL, b.MKT_DATE)).Nodup

instance : DecidablePred KeyUnique := fun s => by
  unfold KeyUnique; infer_instance

/-- The spec's domain precondition (§4.2 step 4): bar values are nonzero for
a real trading day.  Theorems about digest cells assume it for every stored
bar, because `digest_str` divides by the resolved bar's value. -/
def StorePositive (store : Store) : Prop :=
  ∀ b ∈ store, b.MKT_CLOSE ≠ 0 ∧ b.MKT_VOLUME ≠ 0

instance : DecidablePred StorePositive := fun s => by
  unfold StorePositive; infer_instance

/-! ## StockService (service.py) -/

/-- Descending insertion by MKT_DATE. -/
def insertDesc (b : MarketBar) : List MarketBar → List MarketBar
  | [] => [b]
  | c :: l => if c.MKT_DATE < b.MKT_DATE then b :: c :: l else c :: insertDesc b l

/-- `df.sort_values(by='MKT_DATE', ascending=False)` of service.py line 64. -/
def sortValuesDesc (df : DataFrame) : DataFrame :=
  df.foldr insertDesc []

/-- service.py lines 53-69, `StockService.maybe_get_data`: select the window
[as_of_date - look_back, as_of_date]; return the (empty) frame if nothing is
there, else the single most recent row (`sort_values` descending, `head(1)`).
The result type is `Option DataFrame` because the caller tests it with
`is None`; both return statements produce a frame, never `None`. -/
def maybe_get_data (store : Store) (symbol : String) (as_of_date : Int)
    (look_back : Int := 5) : Option DataFrame :=
  let lo_date := as_of_date - look_back
  let df := MarketDataDAO.select store symbol lo_date as_of_date
  if df.isEmpty then some df
  else some ((sortValuesDesc df).take 1)

/-- service.py lines 76-90, the inner `digest_str`: the percentage is
`int((compare_value - value) / value * 100)` — the as-of value is passed as
`compare_value` and the resolved historical value as `value` (lines 127-128),
so the division is by the resolved value.  In Python the operands are
float64/int64; the `ℚ` model is exact for the division, and a zero `value`
(excluded by the spec's domain precondition) is where the idealisation and
numpy's inf/nan behaviour part ways. -/
def digest_str (value compare_value : ℚ) (ballpark_value : Bool := false) : String :=
  let pct : Int := pyInt ((compare_value - value) / value * 100)
  let indicator := if 0 < pct then "↑" else if pct < 0 then "↓" else "→"
  let v := if ballpark_value then ballpark.business value else fmtThousands value
  v ++ " (" ++ indicator ++ " " ++ toString pct ++ "%)"

/-- service.py lines 97-104: the offset configuration, an insertion-ordered
mapping label → target date. -/
def offsetConfig (as_of_date : Int) : List (String × Int) :=
  [("1d", as_of_date - 1), ("1m", as_of_date - 30), ("3m", as_of_date - 90),
   ("6m", as_of_date - 180), ("1y", as_of_date - 365), ("3y", as_of_date - 365 * 3)]

/-- service.py line 113, `[df['MKT_DATE'].values[0] for df in ...]` lifted to
the rows themselves: the first row of each frame, left to right.  A `None`
entry would raise TypeError (`None` is not subscriptable) and an empty frame
raises IndexError (`.values[0]` on an empty column). -/
def extractBars : List (Option DataFrame) → Except PyErr (List MarketBar)
  | [] => .ok []
  | none :: _ => .error .typeError
  | some [] :: _ => .error .indexError
  | some (b :: _) :: rest => (extractBars rest).map fun bs => b :: bs

/-- Code-point lexicographic comparison of character lists, the order Python
string comparison uses. -/
def charsLt : List Char → List Char → Bool
  | _, [] => false
  | [], _ :: _ => true
  | a :: as, b :: bs =>
    if a.toNat < b.toNat then true
    else if b.toNat < a.toNat then false
    else charsLt as bs

/-- Python string `<`: code-point lexicographic order. -/
def strLt (a b : String) : Bool := charsLt a.data b.data

/-- Ascending insertion of a string into a sorted list (code-point order). -/
def insertStr (x : String) : List String → List String
  | [] => [x]
  | y :: l => if strLt x y then x :: y :: l else y :: insertStr x l

/-- Lexicographic (code-point) sort, the order in which `DataFrame.pivot`
emits its column labels (service.py line 151). -/
def sortStrings (l : List String) : List String :=
  l.foldr insertStr []

/-- One cell of the pivot of service.py line 151: the value whose LABEL is
`label`.  pandas would fill NaN for a missing pair; every pair is present
here, so the default is never used. -/
def pivotCell (cells : List (String × String)) (label : String) : String :=
  match cells.find? (fun p => p.1 == label) with
  | some p => p.2
  | none => ""

/-- The digest report as returned (service.py line 163): the frame after
`reset_index()`, whose first column is the pivot's METRIC index. -/
structure Report where
  columns : List String
  rows : List (List String)
deriving DecidableEq, Repr

/-- service.py lines 117-162: label the resolved rows, build the comparison
cells against the as-of close and volume, pivot long-to-wide (the pivot emits
label columns in sorted order and metric rows CLOSE before VOLUME), insert
the as-of column then the SYMBOL column at position 0, and reset the index.
`bars` are the single resolved rows in `offsetConfig` order.  The
`sort_values(by=['MKT_DATE'])` of line 122 only permutes the pre-pivot rows
and cannot change any pivot cell (the pivot is keyed by METRIC × LABEL), so
it has no observable effect here. -/
def buildReport (symbol : String) (as_of_date : Int) (as_of_bar : MarketBar)
    (bars : List MarketBar) : Report :=
  let labels := (offsetConfig as_of_date).map (·.1)
  let labeled := labels.zip bars
  let as_of_close := as_of_bar.MKT_CLOSE
  let as_of_vol := as_of_bar.MKT_VOLUME
  let closeCells := labeled.map fun p => (p.1, digest_str p.2.MKT_CLOSE as_of_close false)
  let volCells :=
    labeled.map fun p => (p.1, digest_str (p.2.MKT_VOLUME : ℚ) (as_of_vol : ℚ) true)
  let cols := sortStrings labels
  { columns := "METRIC" :: "SYMBOL" :: fmtDateLabel as_of_date :: cols,
    rows := ["CLOSE" :: symbol :: fmtThousands as_of_close :: cols.map (pivotCell closeCells),
             "VOLUME" :: symbol :: ballpark.business (as_of_vol : ℚ)
               :: cols.map (pivotCell volCells)] }

/-- service.py lines 71-163, `StockService.digest`.  Returns the outcome and
the store queries performed, in order.  Faithful control flow:
- as-of resolution with zero lookback; empty → DigestError (line 95) with no
  further query;
- all six offsets resolved (the dict comprehension of line 105 queries every
  offset before any check);
- the missing-data check of lines 108-110 tests `df is None`; were it ever to
  fire, building its message would evaluate `json.dumps(config)` and raise
  TypeError, because the config values are `datetime.date` objects;
- the date extraction of line 113 raises IndexError at the first empty frame;
- the duplicate check of line 114 compares `len(set(dates))` with
  `len(dates)`; its message also evaluates `json.dumps(config)`, so firing it
  would raise TypeError. -/
def digest (store : Store) (symbol : String) (as_of_date : Int) :
    Except PyErr Report × List Query :=
  let q0 : Query := (symbol, as_of_date - 0, as_of_date)
  match maybe_get_data store symbol as_of_date 0 with
  | none => (.error .attributeError, [q0])
  | some as_of_data =>
    match as_of_data with
    | [] =>
      (.error (.digestError ("Missing market data for as-of-date " ++ fmtYmd as_of_date)),
       [q0])
    | as_of_bar :: _ =>
      let config := offsetConfig as_of_date
      let queries := q0 :: config.map fun lt => (symbol, lt.2 - 5, lt.2)
      let data_by_label := config.map fun lt => (lt.1, maybe_get_data store symbol lt.2 5)
      if 0 < (data_by_label.filter fun x => x.2.isNone).length then
        (.error .typeError, queries)
      else
        match extractBars (data_by_label.map (·.2)) with
        | .error e => (.error e, queries)
        | .ok bars =>
          let dates := bars.map (·.MKT_DATE)
          if dates.dedup.length ≠ dates.length then
            (.error .typeError, queries)
          else
            (.ok (buildReport symbol as_of_date as_of_bar bars), queries)

/-! ## Accessors used to state concrete outcomes -/

/-- The columns of a successful digest outcome. -/
def colsOf (p : Except PyErr Report × List Query) : Option (List String) :=
  match p.1 with
  | .ok r => some r.columns
  | .error _ => none

/-- The (row, column) cell of a successful digest outcome. -/
def cellAt (p : Except PyErr Report × List Query) (i j : Nat) : Option String :=
  match p.1 with
  | .ok r => some ((r.rows.getD i []).getD j "")
  | .error _ => none

/-- The shape (rows, columns) of a successful digest outcome. -/
def shapeOf (p : Except PyErr Report × List Query) : Option (Nat × Nat) :=
  match p.1 with
  | .ok r => some (r.rows.length, r.columns.length)
  | .error _ => none

/-! ## Concrete stores for witnesses and counterexamples -/

/-- A bar with open/high/low equal to close, enough for the digest pipeline,
at the given civil date. -/
def mkBar (symbol : String) (y m d : Int) (close : ℚ) (vol : Int) : MarketBar :=
  { MKT_SYMBOL := symbol, MKT_DATE := daysFromCivil y m d,
    MKT_OPEN := close, MKT_HIGH := close, MKT_LOW := close,
    MKT_CLOSE := close, MKT_VOLUME := vol }

/-- The spec's end-to-end scenario store (§8), completed with exact-date bars
at the five remaining offsets so that the digest can succeed: "ABC" with
close 100 / volume 1,000,000 on 2024-01-02 and close 90 / volume 500,000 on
2024-01-01, plus bars on 2023-12-03, 2023-10-04, 2023-07-06, 2023-01-02 and
2021-01-02. -/
def scenStore : Store :=
  [mkBar "ABC" 2024 1 2 100 1000000,
   mkBar "ABC" 2024 1 1 90 500000,
   mkBar "ABC" 2023 12 3 80 400000,
   mkBar "ABC" 2023 10 4 70 300000,
   mkBar "ABC" 2023 7 6 60 200000,
   mkBar "ABC" 2023 1 2 50 100000,
   mkBar "ABC" 2021 1 2 40 50000]

/-- The scenario's as-of date, 2024-01-02. -/
def scenD : Int := daysFromCivil 2024 1 2

/-- A store holding only the as-of bar: every offset window is empty. -/
def c2store : Store :=
  [mkBar "ABC" 2024 1 2 100 1000000]

-- Decidable equality of outcomes, for evaluating concrete digests.
deriving instance DecidableEq for Except

/-- The report the pipeline produces on `scenStore` (checked below by
`scenEval`): note the METRIC column first, the pivot's lexicographic label
order 1d, 1m, 1y, 3m, 3y, 6m, and percentages computed against the resolved
(historical) value. -/
def scenReport : Report :=
  { columns := ["METRIC", "SYMBOL", "Tue 02 Jan 24", "1d", "1m", "1y", "3m", "3y", "6m"],
    rows := [["CLOSE", "ABC", "100", "90 (↑ 11%)", "80 (↑ 25%)", "50 (↑ 100%)",
              "70 (↑ 42%)", "40 (↑ 150%)", "60 (↑ 66%)"],
             ["VOLUME", "ABC", "1M", "500K (↑ 100%)", "400K (↑ 150%)", "100K (↑ 900%)",
              "300K (↑ 233%)", "50K (↑ 1900%)", "200K (↑ 400%)"]] }

/-- The seven store queries every full digest run performs, in order: the
zero-lookback as-of query, then one five-day window per offset. -/
def scenQueries : List Query :=
  [("ABC", scenD - 0, scenD),
   ("ABC", scenD - 1 - 5, scenD - 1), ("ABC", scenD - 30 - 5, scenD - 30),
   ("ABC", scenD - 90 - 5, scenD - 90), ("ABC", scenD - 180 - 5, scenD - 180),
   ("ABC", scenD - 365 - 5, scenD - 365),
   ("ABC", scenD - 365 * 3 - 5, scenD - 365 * 3)]

/-- A row to upsert for the round-trip property. -/
def c9bar : MarketBar := mkBar "AAA" 2024 2 1 10 100

/-- The same (symbol, date) key as `c9bar` with different OHLCV values. -/
def c9bar2 : MarketBar := mkBar "AAA" 2024 2 1 20 200

/-- A store with one unrelated row, for the round-trip witness. -/
def c9store : Store := [mkBar "XYZ" 2024 3 1 11 111]

/-- The six rows the offsets resolve to on `scenStore`, in `offsetConfig`
order (1d, 1m, 3m, 6m, 1y, 3y). -/
def scenBars : List MarketBar :=
  [mkBar "ABC" 2024 1 1 90 500000, mkBar "ABC" 2023 12 3 80 400000,
   mkBar "ABC" 2023 10 4 70 300000, mkBar "ABC" 2023 7 6 60 200000,
   mkBar "ABC" 2023 1 2 50 100000, mkBar "ABC" 2021 1 2 40 50000]

/-! ## Resolver lemmas -/

/-- Membership in a range select is membership in the store within the window. -/
theorem mem_select {store : Store} {sym : String} {lo hi : Int} {b : MarketBar} :
    b ∈ MarketDataDAO.select store sym lo hi ↔
      b ∈ store ∧ b.MKT_SYMBOL = sym ∧ lo ≤ b.MKT_DATE ∧ b.MKT_DATE ≤ hi := by
  simp [MarketDataDAO.select, List.mem_filter, and_assoc]

theorem mem_insertDesc {b x : MarketBar} {l : List MarketBar} :
    x ∈ insertDesc b l ↔ x = b ∨ x ∈ l := by
  induction l with
  | nil => simp [insertDesc]
  | cons c l ih =>
    by_cases h : c.MKT_DATE < b.MKT_DATE
    · simp [insertDesc, h]
    · simp [insertDesc, h, ih]
      tauto

theorem mem_sortValuesDesc {x : MarketBar} {l : List MarketBar} :
    x ∈ sortValuesDesc l ↔ x ∈ l := by
  induction l with
  | nil => simp [sortValuesDesc]
  | cons c l ih =>
    simp only [sortValuesDesc, List.foldr] at *
    rw [mem_insertDesc, ih, List.mem_cons]

theorem insertDesc_ne_nil {b : MarketBar} {l : List MarketBar} : insertDesc b l ≠ [] := by
  cases l with
  | nil => simp [insertDesc]
  | cons c l =>
    by_cases h : c.MKT_DATE < b.MKT_DATE <;> simp [insertDesc, h]

/-- The head of a descending-sorted list bounds every element. -/
def MaxHead (l : List MarketBar) : Prop :=
  ∀ h t, l = h :: t → ∀ x ∈ l, x.MKT_DATE ≤ h.MKT_DATE

theorem maxHead_insertDesc {b : MarketBar} {l : List MarketBar} (hl : MaxHead l) :
    MaxHead (insertDesc b l) := by
  cases l with
  | nil =>
    intro h t heq x hx
    simp only [insertDesc] at heq hx
    injection heq with h1 h2
    subst h1
    simp only [List.mem_singleton] at hx
    simp [hx]
  | cons c l =>
    by_cases hc : c.MKT_DATE < b.MKT_DATE
    · intro h t heq x hx
      simp only [insertDesc, if_pos hc] at heq hx
      injection heq with h1 h2
      subst h1
      rcases List.mem_cons.mp hx with rfl | hx2
      · exact le_refl _
      · exact le_of_lt (lt_of_le_of_lt (hl c l rfl x hx2) hc)
    · intro h t heq x hx
      simp only [insertDesc, if_neg hc] at heq hx
      injection heq with h1 h2
      subst h1
      rcases List.mem_cons.mp hx with rfl | hx2
      · exact le_refl _
      · rcases mem_insertDesc.mp hx2 with rfl | hx3
        · exact le_of_not_lt hc
        · exact hl c l rfl x (List.mem_cons_of_mem _ hx3)

theorem maxHead_sortValuesDesc (l : List MarketBar) : MaxHead (sortValuesDesc l) := by
  induction l with
  | nil => intro h t heq; simp [sortValuesDesc] at heq
  | cons c l ih => exact maxHead_insertDesc ih

theorem sortValuesDesc_ne_nil {l : List MarketBar} (h : l ≠ []) :
    sortValuesDesc l ≠ [] := by
  cases l with
  | nil => exact absurd rfl h
  | cons c l => exact insertDesc_ne_nil

/-- `maybe_get_data` always returns a frame ("some"), never `None`. -/
theorem mgd_isSome (store : Store) (sym : String) (t w : Int) :
    (maybe_get_data store sym t w).isSome = true := by
  simp only [maybe_get_data]
  split <;> rfl

theorem mgd_isNone (store : Store) (sym : String) (t w : Int) :
    (maybe_get_data store sym t w).isNone = false := by
  simp only [maybe_get_data]
  split <;> rfl

/-- `maybe_get_data` returns the empty frame exactly when the window holds no bar. -/
theorem mgd_empty_iff (store : Store) (sym : String) (t w : Int) :
    maybe_get_data store sym t w = some [] ↔
      ∀ b ∈ store, ¬(b.MKT_SYMBOL = sym ∧ t - w ≤ b.MKT_DATE ∧ b.MKT_DATE ≤ t) := by
  simp only [maybe_get_data]
  constructor
  · intro h b hb hcon
    split at h
    · next hemp =>
      have : b ∈ MarketDataDAO.select store sym (t - w) t :=
        mem_select.mpr ⟨hb, hcon.1, hcon.2.1, hcon.2.2⟩
      rw [List.isEmpty_iff] at hemp
      rw [hemp] at this
      exact absurd this (List.not_mem_nil b)
    · next hemp =>
      have h2 := Option.some.inj h
      have hne : sortValuesDesc (MarketDataDAO.select store sym (t - w) t) ≠ [] :=
        sortValuesDesc_ne_nil (by simpa [List.isEmpty_iff] using hemp)
      cases hs : sortValuesDesc (MarketDataDAO.select store sym (t - w) t) with
      | nil => exact absurd hs hne
      | cons m tl => rw [hs] at h2; simp at h2
  · intro h
    have hemp : MarketDataDAO.select store sym (t - w) t = [] := by
      rw [List.eq_nil_iff_forall_not_mem]
      intro b hb
      obtain ⟨hbs, hsym, hlo, hhi⟩ := mem_select.mp hb
      exact h b hbs ⟨hsym, hlo, hhi⟩
    simp [hemp]

/-- Soundness: a bar returned by the resolver lies in the store, matches the
symbol, lies in the lookback window and is most recent there. -/
theorem mgd_sound {store : Store} {sym : String} {t w : Int} {l : List MarketBar}
    (h : maybe_get_data store sym t w = some l) {b : MarketBar} (hb : b ∈ l) :
    b ∈ store ∧ b.MKT_SYMBOL = sym ∧ t - w ≤ b.MKT_DATE ∧ b.MKT_DATE ≤ t ∧
      ∀ b2 ∈ store, b2.MKT_SYMBOL = sym → t - w ≤ b2.MKT_DATE → b2.MKT_DATE ≤ t →
        b2.MKT_DATE ≤ b.MKT_DATE := by
  simp only [maybe_get_data] at h
  split at h
  · next hemp =>
    have h2 := Option.some.inj h
    rw [← h2] at hb
    rw [List.isEmpty_iff] at hemp
    rw [hemp] at hb
    exact absurd hb (List.not_mem_nil b)
  · next hemp =>
    have h2 := Option.some.inj h
    cases hs : sortValuesDesc (MarketDataDAO.select store sym (t - w) t) with
    | nil =>
      exact absurd hs (sortValuesDesc_ne_nil (by simpa [List.isEmpty_iff] using hemp))
    | cons m tl =>
      rw [hs] at h2
      simp only [List.take] at h2
      rw [← h2] at hb
      have hbm : b = m := by simpa using hb
      subst hbm
      have hmem : b ∈ MarketDataDAO.select store sym (t - w) t :=
        mem_sortValuesDesc.mp (hs ▸ List.mem_cons_self b tl)
      obtain ⟨hbs, hsym, hlo, hhi⟩ := mem_select.mp hmem
      refine ⟨hbs, hsym, hlo, hhi, ?_⟩
      intro b2 hb2 hsym2 hlo2 hhi2
      have hb2m : b2 ∈ sortValuesDesc (MarketDataDAO.select store sym (t - w) t) :=
        mem_sortValuesDesc.mpr (mem_select.mpr ⟨hb2, hsym2, hlo2, hhi2⟩)
      exact maxHead_sortValuesDesc _ b tl hs b2 (hs ▸ hb2m)

/-- Completeness: under the primary-key invariant, the most recent in-window
bar is exactly what the resolver returns. -/
theorem mgd_complete {store : Store} {sym : String} {t w : Int} {b : MarketBar}
    (hb : b ∈ store) (hsym : b.MKT_SYMBOL = sym) (hlo : t - w ≤ b.MKT_DATE)
    (hhi : b.MKT_DATE ≤ t)
    (hmax : ∀ b2 ∈ store, b2.MKT_SYMBOL = sym → t - w ≤ b2.MKT_DATE →
      b2.MKT_DATE ≤ t → b2.MKT_DATE ≤ b.MKT_DATE)
    (hk : KeyUnique store) :
    maybe_get_data store sym t w = some [b] := by
  have hmem : b ∈ MarketDataDAO.select store sym (t - w) t :=
    mem_select.mpr ⟨hb, hsym, hlo, hhi⟩
  have hne : MarketDataDAO.select store sym (t - w) t ≠ [] := by
    intro hnil; rw [hnil] at hmem; exact absurd hmem (List.not_mem_nil b)
  simp only [maybe_get_data]
  rw [if_neg (by simpa [List.isEmpty_iff] using hne)]
  cases hs : sortValuesDesc (MarketDataDAO.select store sym (t - w) t) with
  | nil => exact absurd hs (sortValuesDesc_ne_nil hne)
  | cons m tl =>
    have hmmem : m ∈ MarketDataDAO.select store sym (t - w) t :=
      mem_sortValuesDesc.mp (hs ▸ List.mem_cons_self m tl)
    obtain ⟨hms, hmsym, hmlo, hmhi⟩ := mem_select.mp hmmem
    have h1 : m.MKT_DATE ≤ b.MKT_DATE := hmax m hms hmsym hmlo hmhi
    have h2 : b.MKT_DATE ≤ m.MKT_DATE := by
      have := maxHead_sortValuesDesc (MarketDataDAO.select store sym (t - w) t) m tl hs
      exact this b (hs ▸ mem_sortValuesDesc.mpr hmem)
    have heqd : m.MKT_DATE = b.MKT_DATE := le_antisymm h1 h2
    have heq : m = b := by
      have hk2 : ((store.map fun x => (x.MKT_SYMBOL, x.MKT_DATE)).Nodup) := hk
      exact List.inj_on_of_nodup_map hk2 hms hb (by rw [hmsym, hsym, heqd])
    rw [heq]
    simp [List.take]

/-! ## Date-extraction and control-flow lemmas -/

/-- `extractBars` succeeds exactly when every frame has a first row, and then
returns those first rows in order. -/
theorem extractBars_ok_iff {opts : List (Option DataFrame)} {bars : List MarketBar} :
    extractBars opts = .ok bars ↔
      List.Forall₂ (fun o b => ∃ tl, o = some (b :: tl)) opts bars := by
  induction opts generalizing bars with
  | nil =>
    constructor
    · intro h
      simp only [extractBars] at h
      cases h
      exact List.Forall₂.nil
    · intro h
      cases h
      rfl
  | cons o rest ih =>
    cases o with
    | none =>
      constructor
      · intro h; simp [extractBars] at h
      · intro h
        rcases List.forall₂_cons_left_iff.mp h with ⟨b, u, ⟨tl, htl⟩, _, _⟩
        exact absurd htl (by simp)
    | some df =>
      cases df with
      | nil =>
        constructor
        · intro h; simp [extractBars] at h
        · intro h
          rcases List.forall₂_cons_left_iff.mp h with ⟨b, u, ⟨tl, htl⟩, _, _⟩
          exact absurd (Option.some.inj htl) (by simp)
      | cons hd tlf =>
        constructor
        · intro h
          simp only [extractBars] at h
          cases hx : extractBars rest with
          | error e => rw [hx] at h; exact absurd h (by simp [Except.map])
          | ok bs =>
            rw [hx] at h
            simp only [Except.map] at h
            cases h
            exact List.Forall₂.cons ⟨tlf, rfl⟩ (ih.mp hx)
        · intro h
          rcases List.forall₂_cons_left_iff.mp h with ⟨b, u, ⟨tl, htl⟩, hrest, rfl⟩
          obtain ⟨rfl, rfl⟩ : hd = b ∧ tlf = tl := by
            have := Option.some.inj htl
            exact ⟨(List.cons.injEq .. ▸ this).1, (List.cons.injEq .. ▸ this).2⟩
          simp only [extractBars, ih.mpr hrest, Except.map]

/-- On a list of frames (no `None` entries), `extractBars` can only fail with
IndexError. -/
theorem extractBars_err {opts : List (Option DataFrame)} {e : PyErr}
    (hs : ∀ o ∈ opts, o.isSome = true) (h : extractBars opts = .error e) :
    e = .indexError := by
  induction opts with
  | nil => simp [extractBars] at h
  | cons o rest ih =>
    cases o with
    | none => exact absurd (hs none (List.mem_cons_self _ _)) (by simp)
    | some df =>
      cases df with
      | nil =>
        simp only [extractBars] at h
        cases h
        rfl
      | cons hd tlf =>
        simp only [extractBars] at h
        cases hx : extractBars rest with
        | error e2 =>
          rw [hx] at h
          simp only [Except.map] at h
          cases h
          exact ih (fun o ho => hs o (List.mem_cons_of_mem _ ho)) hx
        | ok bs =>
          rw [hx] at h
          simp [Except.map] at h

/-- The six offsets of `offsetConfig`, labels only. -/
theorem offset_labels (d : Int) :
    (offsetConfig d).map (·.1) = ["1d", "1m", "3m", "6m", "1y", "3y"] := rfl

/-- The missing-data (`is None`) filter of service.py line 108 is always
empty: `maybe_get_data` never returns `None`. -/
theorem noneFilter_nil (store : Store) (sym : String) (d : Int) :
    (((offsetConfig d).map fun lt => (lt.1, maybe_get_data store sym lt.2 5)).filter
      fun x => x.2.isNone) = [] := by
  simp [offsetConfig, List.filter, mgd_isNone]

/-- The resolved offset rows carry pairwise distinct market dates: the six
lookback windows [target - 5, target] are pairwise disjoint, the offsets
being at least 29 days apart. -/
theorem resolvedDates_nodup {store : Store} {sym : String} {d : Int}
    {bars : List MarketBar}
    (h : extractBars ((offsetConfig d).map fun lt =>
      maybe_get_data store sym lt.2 5) = .ok bars) :
    (bars.map (·.MKT_DATE)).Nodup := by
  rw [extractBars_ok_iff] at h
  simp only [offsetConfig, List.map] at h
  rcases List.forall₂_cons_left_iff.mp h with ⟨b1, u1, ⟨t1, e1⟩, h1, rfl⟩
  rcases List.forall₂_cons_left_iff.mp h1 with ⟨b2, u2, ⟨t2, e2⟩, h2, rfl⟩
  rcases List.forall₂_cons_left_iff.mp h2 with ⟨b3, u3, ⟨t3, e3⟩, h3, rfl⟩
  rcases List.forall₂_cons_left_iff.mp h3 with ⟨b4, u4, ⟨t4, e4⟩, h4, rfl⟩
  rcases List.forall₂_cons_left_iff.mp h4 with ⟨b5, u5, ⟨t5, e5⟩, h5, rfl⟩
  rcases List.forall₂_cons_left_iff.mp h5 with ⟨b6, u6, ⟨t6, e6⟩, h6, rfl⟩
  rw [List.forall₂_nil_left_iff] at h6
  subst h6
  have d1 := mgd_sound e1 (List.mem_cons_self b1 t1)
  have d2 := mgd_sound e2 (List.mem_cons_self b2 t2)
  have d3 := mgd_sound e3 (List.mem_cons_self b3 t3)
  have d4 := mgd_sound e4 (List.mem_cons_self b4 t4)
  have d5 := mgd_sound e5 (List.mem_cons_self b5 t5)
  have d6 := mgd_sound e6 (List.mem_cons_self b6 t6)
  obtain ⟨-, -, l1, u1', -⟩ := d1
  obtain ⟨-, -, l2, u2', -⟩ := d2
  obtain ⟨-, -, l3, u3', -⟩ := d3
  obtain ⟨-, -, l4, u4', -⟩ := d4
  obtain ⟨-, -, l5, u5', -⟩ := d5
  obtain ⟨-, -, l6, u6', -⟩ := d6
  simp only [List.map, List.nodup_cons, List.mem_cons, List.mem_singleton,
    List.not_mem_nil, or_false, List.nodup_nil, and_true, not_or, not_false_eq_true]
  omega

/-- Control-flow trichotomy of `digest`: either a report built from the as-of
row and the six resolved rows, or the as-of DigestError with only the as-of
query performed, or the IndexError of the date extraction after all seven
queries.  The `is None` branch and the duplicate-date branch (each of which
would raise TypeError from `json.dumps(config)`) are unreachable: the
resolver never returns `None`, and the resolved dates are always pairwise
distinct. -/
theorem digest_cases (store : Store) (sym : String) (d : Int) :
    (∃ ab rest bars,
        maybe_get_data store sym d 0 = some (ab :: rest) ∧
        extractBars ((offsetConfig d).map fun lt =>
          maybe_get_data store sym lt.2 5) = .ok bars ∧
        digest store sym d = (.ok (buildReport sym d ab bars),
          (sym, d - 0, d) :: (offsetConfig d).map fun lt => (sym, lt.2 - 5, lt.2))) ∨
    (maybe_get_data store sym d 0 = some [] ∧
        digest store sym d = (.error (.digestError
          ("Missing market data for as-of-date " ++ fmtYmd d)), [(sym, d - 0, d)])) ∨
    (digest store sym d = (.error .indexError,
        (sym, d - 0, d) :: (offsetConfig d).map fun lt => (sym, lt.2 - 5, lt.2))) := by
  have hmm : List.map (fun x => x.2) ((offsetConfig d).map fun lt =>
      (lt.1, maybe_get_data store sym lt.2 5)) =
      (offsetConfig d).map fun lt => maybe_get_data store sym lt.2 5 := by
    simp [List.map_map, Function.comp]
  cases hm : maybe_get_data store sym d 0 with
  | none => exact absurd (mgd_isSome store sym d 0) (by rw [hm]; simp)
  | some df =>
    cases df with
    | nil =>
      right; left
      exact ⟨rfl, by simp only [digest, hm]⟩
    | cons ab rest =>
      have hfilter := noneFilter_nil store sym d
      have hsome : ∀ o ∈ (offsetConfig d).map fun lt =>
          maybe_get_data store sym lt.2 5, o.isSome = true := by
        intro o ho
        simp only [List.mem_map] at ho
        obtain ⟨lt, -, rfl⟩ := ho
        exact mgd_isSome store sym lt.2 5
      cases hx : extractBars ((offsetConfig d).map fun lt =>
          maybe_get_data store sym lt.2 5) with
      | error e =>
        right; right
        have he : e = .indexError := extractBars_err hsome hx
        subst he
        simp only [digest, hm, hfilter, hmm, hx, List.length_nil, lt_irrefl, if_false]
      | ok bars =>
        left
        refine ⟨ab, rest, bars, rfl, rfl, ?_⟩
        have hnd := resolvedDates_nodup hx
        simp only [digest, hm, hfilter, hmm, hx, List.length_nil, lt_irrefl, if_false,
          List.dedup_eq_self.mpr hnd, ne_eq, not_true_eq_false]

/-! ## Upsert lemmas (dao.py insert) -/

theorem sameKey_iff {r b : MarketBar} :
    sameKey r b = true ↔ r.MKT_SYMBOL = b.MKT_SYMBOL ∧ r.MKT_DATE = b.MKT_DATE := by
  simp [sameKey]

theorem sameKey_self (b : MarketBar) : sameKey b b = true := by
  simp [sameKey]

/-- `updateRow` on a conflicting row substitutes the whole incoming row. -/
theorem updateRow_eq {r b : MarketBar} (h : sameKey r b = true) : updateRow r b = b := by
  obtain ⟨h1, h2⟩ := sameKey_iff.mp h
  cases r; cases b
  simp only [updateRow]
  simp_all

/-- Under the primary-key invariant, at most one row matches any key. -/
theorem countKey_le_one {store : Store} (hk : KeyUnique store) (b : MarketBar) :
    (store.filter fun r => sameKey r b).length ≤ 1 := by
  induction store with
  | nil => simp
  | cons a s ih =>
    have hk1 : ((a :: s).map fun x => (x.MKT_SYMBOL, x.MKT_DATE)).Nodup := hk
    rw [List.map_cons] at hk1
    obtain ⟨ha, hk2⟩ := List.nodup_cons.mp hk1
    by_cases hab : sameKey a b = true
    · have hs : s.filter (fun r => sameKey r b) = [] := by
        rw [List.filter_eq_nil_iff]
        intro r hr hrb
        apply ha
        rw [List.mem_map]
        refine ⟨r, hr, ?_⟩
        obtain ⟨h1, h2⟩ := sameKey_iff.mp hrb
        obtain ⟨h3, h4⟩ := sameKey_iff.mp hab
        rw [h1, h2, h3, h4]
      simp [List.filter_cons, hab, hs]
    · simp only [List.filter_cons, hab, if_false, Bool.false_eq_true]
      exact ih hk2

/-- Replacing the conflicting row in place leaves exactly the incoming row
matching the key. -/
theorem filter_map_replace {store : Store} {b : MarketBar}
    (hcnt : (store.filter fun r => sameKey r b).length ≤ 1)
    (hany : store.any (fun r => sameKey r b) = true) :
    (store.map fun r => if sameKey r b then updateRow r b else r).filter
      (fun r => sameKey r b) = [b] := by
  induction store with
  | nil => simp at hany
  | cons a s ih =>
    by_cases hab : sameKey a b = true
    · have hlen : (s.filter fun r => sameKey r b).length = 0 := by
        have hc : (a :: s).filter (fun r => sameKey r b) =
            a :: s.filter (fun r => sameKey r b) := by
          simp [List.filter_cons, hab]
        rw [hc, List.length_cons] at hcnt
        omega
      have hs : s.filter (fun r => sameKey r b) = [] := List.length_eq_zero.mp hlen
      have hsnone : ∀ r ∈ s, sameKey r b = false := by
        intro r hr
        by_contra hcon
        have : r ∈ s.filter (fun r => sameKey r b) :=
          List.mem_filter.mpr ⟨hr, by simpa using hcon⟩
        rw [hs] at this
        exact absurd this (List.not_mem_nil r)
      have hmapnil : (s.map fun r => if sameKey r b then updateRow r b else r).filter
          (fun r => sameKey r b) = [] := by
        rw [List.filter_eq_nil_iff]
        intro x hx
        rw [List.mem_map] at hx
        obtain ⟨r, hr, rfl⟩ := hx
        rw [if_neg (by simp [hsnone r hr])]
        simp [hsnone r hr]
      simp only [List.map_cons, if_pos hab, updateRow_eq hab, List.filter_cons,
        sameKey_self, if_pos, hmapnil]
    · have hc : (a :: s).filter (fun r => sameKey r b) = s.filter (fun r => sameKey r b) := by
        simp [List.filter_cons, hab]
      rw [hc] at hcnt
      have hany2 : s.any (fun r => sameKey r b) = true := by
        rcases List.any_eq_true.mp hany with ⟨r, hr, hrb⟩
        rcases List.mem_cons.mp hr with rfl | hrs
        · exact absurd (by simpa using hrb) hab
        · exact List.any_eq_true.mpr ⟨r, hrs, hrb⟩
      have := ih hcnt hany2
      simp only [List.map_cons, List.filter_cons]
      rw [if_neg hab, if_neg hab]
      exact this

/-- The filtered view of an upsert: exactly the incoming row matches its key
afterwards. -/
theorem upsert_filter {store : Store} {b : MarketBar}
    (hcnt : (store.filter fun r => sameKey r b).length ≤ 1) :
    (upsertOne b store).filter (fun r => sameKey r b) = [b] := by
  unfold upsertOne
  by_cases hany : store.any (fun r => sameKey r b) = true
  · rw [if_pos hany]
    exact filter_map_replace hcnt hany
  · rw [if_neg hany]
    have hstore : store.filter (fun r => sameKey r b) = [] := by
      rw [List.filter_eq_nil_iff]
      intro r hr hrb
      exact hany (List.any_eq_true.mpr ⟨r, hr, hrb⟩)
    rw [List.filter_append, hstore]
    simp [sameKey_self]

/-- Upsert preserves the primary-key invariant. -/
theorem upsertOne_keyUnique {store : Store} (hk : KeyUnique store) (b : MarketBar) :
    KeyUnique (upsertOne b store) := by
  unfold upsertOne
  by_cases hany : store.any (fun r => sameKey r b) = true
  · rw [if_pos hany]
    have hmap : (store.map fun r => if sameKey r b then updateRow r b else r).map
        (fun x => (x.MKT_SYMBOL, x.MKT_DATE)) =
        store.map fun x => (x.MKT_SYMBOL, x.MKT_DATE) := by
      rw [List.map_map]
      apply List.map_congr_left
      intro r hr
      by_cases hrb : sameKey r b = true
      · simp [Function.comp, hrb, updateRow]
      · simp [Function.comp, hrb]
    have hk1 : ((store.map fun r => if sameKey r b then updateRow r b else r).map
        (fun x => (x.MKT_SYMBOL, x.MKT_DATE))).Nodup := by
      rw [hmap]; exact hk
    exact hk1
  · rw [if_neg hany]
    have hk1 : ((store ++ [b]).map fun x => (x.MKT_SYMBOL, x.MKT_DATE)).Nodup := by
      rw [List.map_append, List.nodup_append]
      refine ⟨hk, by simp, ?_⟩
      intro k hkmem
      rw [List.mem_map] at hkmem
      obtain ⟨r, hr, rfl⟩ := hkmem
      simp only [List.map_cons, List.map_nil, List.mem_singleton]
      intro hcon
      apply hany
      refine List.any_eq_true.mpr ⟨r, hr, sameKey_iff.mpr ?_⟩
      exact ⟨congrArg Prod.fst hcon, congrArg Prod.snd hcon⟩
    exact hk1

/-- Range-selecting after an upsert and keeping only the key's date is the
key filter itself, when the date lies inside the window. -/
theorem select_filter_key (store : Store) (b : MarketBar) (lo hi : Int)
    (hlo : lo ≤ b.MKT_DATE) (hhi : b.MKT_DATE ≤ hi) :
    (MarketDataDAO.select store b.MKT_SYMBOL lo hi).filter
      (fun r => r.MKT_DATE == b.MKT_DATE) = store.filter fun r => sameKey r b := by
  unfold MarketDataDAO.select
  rw [List.filter_filter]
  apply List.filter_congr
  intro r hr
  apply Bool.eq_iff_iff.mpr
  simp only [Bool.and_eq_true, beq_iff_eq, decide_eq_true_eq, sameKey, and_assoc]
  constructor
  · rintro ⟨hd, hs2, -, -⟩
    exact ⟨hs2, hd⟩
  · rintro ⟨hs2, hd⟩
    exact ⟨hd, hs2, by omega, by omega⟩

/-! ## Report-shape lemmas -/

/-- The shape of every built report: the METRIC, SYMBOL and as-of columns
then the six offset labels in code-point order, two rows, nine cells each
(independently of the resolved rows). -/
theorem buildReport_shape (sym : String) (d : Int) (ab : MarketBar)
    (bars : List MarketBar) :
    (buildReport sym d ab bars).columns =
      ["METRIC", "SYMBOL", fmtDateLabel d, "1d", "1m", "1y", "3m", "3y", "6m"] ∧
    (buildReport sym d ab bars).rows.length = 2 ∧
    ∀ row ∈ (buildReport sym d ab bars).rows, row.length = 9 := by
  refine ⟨rfl, rfl, ?_⟩
  intro row hrow
  rcases List.mem_cons.mp hrow with rfl | hrow2
  · rfl
  · rcases List.mem_cons.mp hrow2 with rfl | hrow3
    · rfl
    · exact absurd hrow3 (List.not_mem_nil row)

/-- The report built from six explicitly listed resolved rows: the pivot
emits the label columns in sorted order (1d, 1m, 1y, 3m, 3y, 6m), so the
cells of the rows resolved in `offsetConfig` order appear permuted
accordingly, each computed by `digest_str` from the resolved value (first
argument) against the as-of value (second argument). -/
theorem buildReport_expl (sym : String) (d : Int) (ab b1 b2 b3 b4 b5 b6 : MarketBar) :
    buildReport sym d ab [b1, b2, b3, b4, b5, b6] =
      { columns := ["METRIC", "SYMBOL", fmtDateLabel d, "1d", "1m", "1y", "3m", "3y", "6m"],
        rows := [["CLOSE", sym, fmtThousands ab.MKT_CLOSE,
                  digest_str b1.MKT_CLOSE ab.MKT_CLOSE false,
                  digest_str b2.MKT_CLOSE ab.MKT_CLOSE false,
                  digest_str b5.MKT_CLOSE ab.MKT_CLOSE false,
                  digest_str b3.MKT_CLOSE ab.MKT_CLOSE false,
                  digest_str b6.MKT_CLOSE ab.MKT_CLOSE false,
                  digest_str b4.MKT_CLOSE ab.MKT_CLOSE false],
                 ["VOLUME", sym, ballpark.business (ab.MKT_VOLUME : ℚ),
                  digest_str (b1.MKT_VOLUME : ℚ) (ab.MKT_VOLUME : ℚ) true,
                  digest_str (b2.MKT_VOLUME : ℚ) (ab.MKT_VOLUME : ℚ) true,
                  digest_str (b5.MKT_VOLUME : ℚ) (ab.MKT_VOLUME : ℚ) true,
                  digest_str (b3.MKT_VOLUME : ℚ) (ab.MKT_VOLUME : ℚ) true,
                  digest_str (b6.MKT_VOLUME : ℚ) (ab.MKT_VOLUME : ℚ) true,
                  digest_str (b4.MKT_VOLUME : ℚ) (ab.MKT_VOLUME : ℚ) true]] } := rfl

/-! ## Claim theorems -/

/-- Claim C1, amended (corrected): for every symbol and as-of date over a
store of nonzero-valued bars, `digest` either returns a report with exactly
2 rows and exactly 9 columns — `len(OffsetSpec) + 3`, because the returned
frame keeps the pivot's METRIC index as a column after `reset_index()` — or
raises DigestError (missing as-of data), or raises IndexError (an offset
lookback window with no bar reaches `df['MKT_DATE'].values[0]`, the
`df is None` check never firing).  No other outcome occurs. -/
theorem C1_amended_shape (store : Store) (sym : String) (d : Int)
    (hpos : StorePositive store) :
    (∃ r qs, digest store sym d = (.ok r, qs) ∧ r.rows.length = 2 ∧
        r.columns.length = 9 ∧ ∀ row ∈ r.rows, row.length = 9) ∨
    (∃ m qs, digest store sym d = (.error (.digestError m), qs)) ∨
    (∃ qs, digest store sym d = (.error .indexError, qs)) := by
  rcases digest_cases store sym d with ⟨ab, rest, bars, h0, hx, heq⟩ | ⟨h0, heq⟩ | heq
  · left
    obtain ⟨hc, hr2, hrl⟩ := buildReport_shape sym d ab bars
    exact ⟨buildReport sym d ab bars, _, heq, hr2, by rw [hc]; rfl, hrl⟩
  · right; left; exact ⟨_, _, heq⟩
  · right; right; exact ⟨_, heq⟩

/-- Claim C3, amended (corrected): the columns of every successful digest
are, in order, METRIC (the pivot index kept by `reset_index()`), SYMBOL, the
as-of-date column, then the six offset labels in the pivot's lexicographic
order 1d, 1m, 1y, 3m, 3y, 6m — not OffsetSpec declaration order — and
nothing else. -/
theorem C3_amended_columns (store : Store) (sym : String) (d : Int) (r : Report)
    (qs : List Query) (hok : digest store sym d = (.ok r, qs)) :
    r.columns = ["METRIC", "SYMBOL", fmtDateLabel d, "1d", "1m", "1y", "3m", "3y", "6m"] := by
  rcases digest_cases store sym d with ⟨ab, rest, bars, h0, hx, heq⟩ | ⟨h0, heq⟩ | heq
  · have h2 := heq.symm.trans hok
    rw [Prod.mk.injEq] at h2
    have h3 := h2.1
    injection h3 with h4
    rw [← h4]
    exact (buildReport_shape sym d ab bars).1
  · have h2 := heq.symm.trans hok
    rw [Prod.mk.injEq] at h2
    exact absurd h2.1 (by simp)
  · have h2 := heq.symm.trans hok
    rw [Prod.mk.injEq] at h2
    exact absurd h2.1 (by simp)

/-- Claim C4, amended (corrected): the comparison cell for every resolved
offset row is `digest_str(resolvedValue, asOfValue)`, whose percentage is
truncate_to_int((asOfValue - resolvedValue) / resolvedValue * 100) — the
delta of the as-of value relative to the resolved (historical) value, the
reverse of the spec's formula: `digest` passes the as-of value as
`compare_value` and the resolved value as `value`, and `digest_str` divides
by `value`.  The rows list both metric rows with the cells in the pivot's
sorted label order. -/
theorem C4_amended_cells (store : Store) (sym : String) (d : Int) (r : Report)
    (qs : List Query) (ab : MarketBar) (abRest : List MarketBar)
    (b1 b2 b3 b4 b5 b6 : MarketBar) (t1 t2 t3 t4 t5 t6 : List MarketBar)
    (hok : digest store sym d = (.ok r, qs))
    (h0 : maybe_get_data store sym d 0 = some (ab :: abRest))
    (h1 : maybe_get_data store sym (d - 1) 5 = some (b1 :: t1))
    (h2 : maybe_get_data store sym (d - 30) 5 = some (b2 :: t2))
    (h3 : maybe_get_data store sym (d - 90) 5 = some (b3 :: t3))
    (h4 : maybe_get_data store sym (d - 180) 5 = some (b4 :: t4))
    (h5 : maybe_get_data store sym (d - 365) 5 = some (b5 :: t5))
    (h6 : maybe_get_data store sym (d - 365 * 3) 5 = some (b6 :: t6)) :
    r.rows = [["CLOSE", sym, fmtThousands ab.MKT_CLOSE,
               digest_str b1.MKT_CLOSE ab.MKT_CLOSE false,
               digest_str b2.MKT_CLOSE ab.MKT_CLOSE false,
               digest_str b5.MKT_CLOSE ab.MKT_CLOSE false,
               digest_str b3.MKT_CLOSE ab.MKT_CLOSE false,
               digest_str b6.MKT_CLOSE ab.MKT_CLOSE false,
               digest_str b4.MKT_CLOSE ab.MKT_CLOSE false],
              ["VOLUME", sym, ballpark.business (ab.MKT_VOLUME : ℚ),
               digest_str (b1.MKT_VOLUME : ℚ) (ab.MKT_VOLUME : ℚ) true,
               digest_str (b2.MKT_VOLUME : ℚ) (ab.MKT_VOLUME : ℚ) true,
               digest_str (b5.MKT_VOLUME : ℚ) (ab.MKT_VOLUME : ℚ) true,
               digest_str (b3.MKT_VOLUME : ℚ) (ab.MKT_VOLUME : ℚ) true,
               digest_str (b6.MKT_VOLUME : ℚ) (ab.MKT_VOLUME : ℚ) true,
               digest_str (b4.MKT_VOLUME : ℚ) (ab.MKT_VOLUME : ℚ) true]] ∧
    (∀ v c : ℚ, ∀ bp : Bool, v ≠ 0 → digest_str v c bp =
      (if bp then ballpark.business v else fmtThousands v) ++ " (" ++
      (if 0 < pyInt ((c - v) / v * 100) then "↑"
       else if pyInt ((c - v) / v * 100) < 0 then "↓" else "→") ++ " " ++
      toString (pyInt ((c - v) / v * 100)) ++ "%)") := by
  constructor
  · rcases digest_cases store sym d with ⟨ab2, rest2, bars, h02, hx, heq⟩ | ⟨h02, heq⟩ | heq
    · have hab : ab2 = ab := by
        have := h02.symm.trans h0
        injection this with h7
        exact ((List.cons.injEq ..).mp h7).1
      rw [extractBars_ok_iff] at hx
      simp only [offsetConfig, List.map] at hx
      rcases List.forall₂_cons_left_iff.mp hx with ⟨c1, u1, ⟨s1, e1⟩, hx1, rfl⟩
      rcases List.forall₂_cons_left_iff.mp hx1 with ⟨c2, u2, ⟨s2, e2⟩, hx2, rfl⟩
      rcases List.forall₂_cons_left_iff.mp hx2 with ⟨c3, u3, ⟨s3, e3⟩, hx3, rfl⟩
      rcases List.forall₂_cons_left_iff.mp hx3 with ⟨c4, u4, ⟨s4, e4⟩, hx4, rfl⟩
      rcases List.forall₂_cons_left_iff.mp hx4 with ⟨c5, u5, ⟨s5, e5⟩, hx5, rfl⟩
      rcases List.forall₂_cons_left_iff.mp hx5 with ⟨c6, u6, ⟨s6, e6⟩, hx6, rfl⟩
      rw [List.forall₂_nil_left_iff] at hx6
      subst hx6
      have hb1 : c1 = b1 := by
        have := e1.symm.trans h1; injection this with h7
        exact ((List.cons.injEq ..).mp h7).1
      have hb2 : c2 = b2 := by
        have := e2.symm.trans h2; injection this with h7
        exact ((List.cons.injEq ..).mp h7).1
      have hb3 : c3 = b3 := by
        have := e3.symm.trans h3; injection this with h7
        exact ((List.cons.injEq ..).mp h7).1
      have hb4 : c4 = b4 := by
        have := e4.symm.trans h4; injection this with h7
        exact ((List.cons.injEq ..).mp h7).1
      have hb5 : c5 = b5 := by
        have := e5.symm.trans h5; injection this with h7
        exact ((List.cons.injEq ..).mp h7).1
      have hb6 : c6 = b6 := by
        have := e6.symm.trans h6; injection this with h7
        exact ((List.cons.injEq ..).mp h7).1
      subst hb1; subst hb2; subst hb3; subst hb4; subst hb5; subst hb6; subst hab
      have hr : r = buildReport sym d ab2 [c1, c2, c3, c4, c5, c6] := by
        have h8 := heq.symm.trans hok
        rw [Prod.mk.injEq] at h8
        have h9 := h8.1
        injection h9 with h9
        exact h9.symm
      rw [hr, buildReport_expl]
    · exact absurd (heq.symm.trans hok) (by simp [Prod.mk.injEq])
    · exact absurd (heq.symm.trans hok) (by simp [Prod.mk.injEq])
  · intro v c bp hv
    rfl

/-- Claim C5 (confirmed): the resolver returns the empty frame exactly when
no bar for the symbol lies in the inclusive window [target - w, target];
otherwise it returns one single bar, which lies in the store and in the
window and carries the maximum date there (and with w = 0 only an exact-date
bar can be returned); conversely, under the primary-key invariant, the
most-recent in-window bar is what it returns. -/
theorem C5_resolver (store : Store) (sym : String) (t w : Int) :
    (maybe_get_data store sym t w = some [] ↔
      ∀ b ∈ store, ¬(b.MKT_SYMBOL = sym ∧ t - w ≤ b.MKT_DATE ∧ b.MKT_DATE ≤ t)) ∧
    (∀ l, maybe_get_data store sym t w = some l → l.length ≤ 1) ∧
    (∀ b, maybe_get_data store sym t w = some [b] →
      b ∈ store ∧ b.MKT_SYMBOL = sym ∧ t - w ≤ b.MKT_DATE ∧ b.MKT_DATE ≤ t ∧
      (w = 0 → b.MKT_DATE = t) ∧
      ∀ b2 ∈ store, b2.MKT_SYMBOL = sym → t - w ≤ b2.MKT_DATE → b2.MKT_DATE ≤ t →
        b2.MKT_DATE ≤ b.MKT_DATE) ∧
    (∀ b, b ∈ store → b.MKT_SYMBOL = sym → t - w ≤ b.MKT_DATE → b.MKT_DATE ≤ t →
      (∀ b2 ∈ store, b2.MKT_SYMBOL = sym → t - w ≤ b2.MKT_DATE → b2.MKT_DATE ≤ t →
        b2.MKT_DATE ≤ b.MKT_DATE) →
      KeyUnique store → maybe_get_data store sym t w = some [b]) := by
  refine ⟨mgd_empty_iff store sym t w, ?_, ?_, ?_⟩
  · intro l hl
    simp only [maybe_get_data] at hl
    split at hl
    · next hemp =>
      injection hl with h2
      rw [← h2, List.isEmpty_iff.mp hemp]
      decide
    · injection hl with h2
      rw [← h2]
      simp only [List.length_take]
      omega
  · intro b hb
    obtain ⟨hs, hsym, hlo, hhi, hmax⟩ := mgd_sound hb (List.mem_singleton.mpr rfl)
    exact ⟨hs, hsym, hlo, hhi, fun hw => by omega, hmax⟩
  · intro b hb hsym hlo hhi hmax hk
    exact mgd_complete hb hsym hlo hhi hmax hk

/-- Claim C6 (confirmed): when the store holds no bar for the symbol at
exactly the as-of date, `digest` fails immediately with the as-of
DigestError, and the only store query it has performed is the single
zero-lookback as-of select — no offset resolution is observable. -/
theorem C6_asof_missing (store : Store) (sym : String) (d : Int)
    (h : ∀ b ∈ store, b.MKT_SYMBOL = sym → b.MKT_DATE ≠ d) :
    digest store sym d =
      (.error (.digestError ("Missing market data for as-of-date " ++ fmtYmd d)),
       [(sym, d - 0, d)]) := by
  have hsel : MarketDataDAO.select store sym d d = [] := by
    rw [MarketDataDAO.select, List.filter_eq_nil_iff]
    intro b hb hbp
    simp only [Bool.and_eq_true, beq_iff_eq, decide_eq_true_eq] at hbp
    obtain ⟨⟨hs2, hl⟩, hh⟩ := hbp
    exact h b hb hs2 (by omega)
  have hmgd : maybe_get_data store sym d 0 = some [] := by
    simp [maybe_get_data, hsel]
  simp only [digest, hmgd]

/-- Claim C7 (confirmed, and vacuity made explicit): the resolved offset
dates of any run in which every offset window held data are always pairwise
distinct — the six five-day lookback windows are pairwise disjoint, the
offsets being at least 29 days apart — so the duplicate-date guard of
service.py line 114 always passes (`len(set(dates)) = len(dates)`), the
claimed implication holds vacuously, and no run of `digest` ever raises the
TypeError that evaluating the duplicate branch's `json.dumps(config)`
message would produce. -/
theorem C7_duplicate_dates (store : Store) (sym : String) (d : Int)
    (bars : List MarketBar)
    (h : extractBars ((offsetConfig d).map fun lt =>
      maybe_get_data store sym lt.2 5) = .ok bars) :
    (bars.map (·.MKT_DATE)).Nodup ∧
    (bars.map (·.MKT_DATE)).dedup.length = (bars.map (·.MKT_DATE)).length ∧
    ∀ e, (digest store sym d).1 = .error e → e ≠ .typeError := by
  have hnd := resolvedDates_nodup h
  refine ⟨hnd, by rw [List.dedup_eq_self.mpr hnd], ?_⟩
  intro e he
  rcases digest_cases store sym d with ⟨ab, rest, bars2, h0, hx, heq⟩ | ⟨h0, heq⟩ | heq
  · rw [heq] at he
    exact absurd he (by simp)
  · rw [heq] at he
    have he2 : Except.error (PyErr.digestError
        ("Missing market data for as-of-date " ++ fmtYmd d)) = Except.error e := he
    injection he2 with he3
    rw [← he3]
    simp
  · rw [heq] at he
    have he2 : Except.error PyErr.indexError = Except.error e := he
    injection he2 with he3
    rw [← he3]
    simp

/-- Claim C8 (confirmed): `digest_str`'s percentage is the truncation toward
zero of (compare - value) / value * 100 — bounded below and strictly above
by the exact ratio when it is nonnegative, and strictly below and above when
it is negative, as truncation (not rounding) requires — and the returned
string is the formatted value with the indicator exactly ↑ for a positive
percentage, ↓ for a negative one and → for zero. -/
theorem C8_truncation_direction (v c : ℚ) (bp : Bool) (hv : v ≠ 0) :
    ((0 : ℚ) ≤ (c - v) / v * 100 →
      (pyInt ((c - v) / v * 100) : ℚ) ≤ (c - v) / v * 100 ∧
      (c - v) / v * 100 < pyInt ((c - v) / v * 100) + 1) ∧
    ((c - v) / v * 100 < 0 →
      (pyInt ((c - v) / v * 100) : ℚ) - 1 < (c - v) / v * 100 ∧
      (c - v) / v * 100 ≤ pyInt ((c - v) / v * 100)) ∧
    digest_str v c bp =
      (if bp then ballpark.business v else fmtThousands v) ++ " (" ++
      (if 0 < pyInt ((c - v) / v * 100) then "↑"
       else if pyInt ((c - v) / v * 100) < 0 then "↓" else "→") ++ " " ++
      toString (pyInt ((c - v) / v * 100)) ++ "%)" := by
  refine ⟨?_, ?_, rfl⟩
  · intro hx
    rw [pyInt, if_neg (by exact not_lt.mpr hx)]
    exact ⟨Int.floor_le _, Int.lt_floor_add_one _⟩
  · intro hx
    rw [pyInt, if_pos hx]
    constructor
    · have := Int.ceil_lt_add_one ((c - v) / v * 100)
      linarith
    · exact Int.le_ceil _

/-- Claim C9 (confirmed): upserting a bar and range-querying a window
containing its date yields exactly that one bar for its key, with identical
field values; a second upsert with the same (symbol, date) key and different
OHLCV values leaves exactly one row for that key — in the query result and
in the whole table — holding the new values. -/
theorem C9_upsert_roundtrip (store : Store) (b b2 : MarketBar) (lo hi : Int)
    (hk : KeyUnique store)
    (hsym : b2.MKT_SYMBOL = b.MKT_SYMBOL) (hdate : b2.MKT_DATE = b.MKT_DATE)
    (hlo : lo ≤ b.MKT_DATE) (hhi : b.MKT_DATE ≤ hi) :
    ((MarketDataDAO.select (MarketDataDAO.insert [b] store) b.MKT_SYMBOL lo hi).filter
      fun r => r.MKT_DATE == b.MKT_DATE) = [b] ∧
    ((MarketDataDAO.select (MarketDataDAO.insert [b2] (MarketDataDAO.insert [b] store))
      b.MKT_SYMBOL lo hi).filter fun r => r.MKT_DATE == b.MKT_DATE) = [b2] ∧
    ((MarketDataDAO.insert [b2] (MarketDataDAO.insert [b] store)).filter
      fun r => sameKey r b) = [b2] := by
  have hins : MarketDataDAO.insert [b] store = upsertOne b store := rfl
  have hins2 : MarketDataDAO.insert [b2] (upsertOne b store) =
      upsertOne b2 (upsertOne b store) := rfl
  have hku1 : KeyUnique (upsertOne b store) := upsertOne_keyUnique hk b
  have hkeyEq : (fun r => sameKey r b) = (fun r => sameKey r b2) := by
    funext r
    simp [sameKey, hsym, hdate]
  refine ⟨?_, ?_, ?_⟩
  · rw [hins, select_filter_key _ b lo hi hlo hhi]
    exact upsert_filter (countKey_le_one hk b)
  · rw [hins, hins2, select_filter_key _ b lo hi hlo hhi, hkeyEq]
    exact upsert_filter (countKey_le_one hku1 b2)
  · rw [hins, hins2, hkeyEq]
    exact upsert_filter (countKey_le_one hku1 b2)

/-- Claim C10 (confirmed): `maybe_get_data` always returns a frame and never
`None` — absence of data in the window is signalled by the empty frame — so
the `df is None` filter that `digest`'s missing-offset validation applies to
its results is always empty. -/
theorem C10_never_none (store : Store) (sym : String) (t w d : Int) :
    (maybe_get_data store sym t w).isSome = true ∧
    (maybe_get_data store sym t w = some [] ↔
      ∀ b ∈ store, ¬(b.MKT_SYMBOL = sym ∧ t - w ≤ b.MKT_DATE ∧ b.MKT_DATE ≤ t)) ∧
    (((offsetConfig d).map fun lt => (lt.1, maybe_get_data store sym lt.2 5)).filter
      fun x => x.2.isNone) = [] :=
  ⟨mgd_isSome store sym t w, mgd_empty_iff store sym t w, noneFilter_nil store sym d⟩

/-! ## Concrete evaluations: counterexamples and witnesses

The section makes the (irreducible) `Rat` arithmetic operations
semireducible so that concrete digests evaluate by `decide`. -/

section
attribute [local semireducible] Rat.sub Rat.add Rat.mul Rat.inv

/-- The end-to-end run on the scenario store, evaluated: the digest succeeds
and produces exactly `scenReport` after performing exactly the seven
`scenQueries`. -/
theorem scenEval : digest scenStore "ABC" scenD = (.ok scenReport, scenQueries) := by
  decide

/-- Counterexample to claim C1 as stated: a successful digest has 9 columns,
not `len(OffsetSpec) + 2 = 8`; and a store in which some offset window holds
no bar makes `digest` raise IndexError, not DigestError. -/
theorem C1_counterexample :
    shapeOf (digest scenStore "ABC" scenD) = some (2, 9) ∧
    (digest c2store "ABC" scenD).1 = Except.error PyErr.indexError := by
  exact ⟨by decide, by decide⟩

/-- Witness for C1 at the scenario store. -/
theorem C1_witness :
    (∃ r qs, digest scenStore "ABC" scenD = (.ok r, qs) ∧ r.rows.length = 2 ∧
        r.columns.length = 9 ∧ ∀ row ∈ r.rows, row.length = 9) ∨
    (∃ m qs, digest scenStore "ABC" scenD = (.error (.digestError m), qs)) ∨
    (∃ qs, digest scenStore "ABC" scenD = (.error .indexError, qs)) :=
  C1_amended_shape scenStore "ABC" scenD (by decide)

/-- Claim C2's failing input, evaluated: with only the as-of bar stored,
every offset window is empty, all seven queries are still performed, and
`digest` raises IndexError — not the DigestError the claim requires (the
missing-data check tests `df is None`, which never holds). -/
theorem C2_failing_eval :
    digest c2store "ABC" scenD = (.error .indexError, scenQueries) := by
  decide

/-- Counterexample to claim C3 as stated: the columns of a successful digest
start with METRIC and list the offset labels in lexicographic order
(1d, 1m, 1y, 3m, 3y, 6m), not SYMBOL-first with declaration order
(1d, 1m, 3m, 6m, 1y, 3y). -/
theorem C3_counterexample :
    colsOf (digest scenStore "ABC" scenD) =
      some ["METRIC", "SYMBOL", "Tue 02 Jan 24", "1d", "1m", "1y", "3m", "3y", "6m"] := by
  decide

/-- Witness for C3 at the scenario store. -/
theorem C3_witness :
    scenReport.columns =
      ["METRIC", "SYMBOL", "Tue 02 Jan 24", "1d", "1m", "1y", "3m", "3y", "6m"] := by
  have h := C3_amended_columns scenStore "ABC" scenD scenReport scenQueries scenEval
  rw [h]
  rfl

/-- Counterexample to claim C4 as stated: in the end-to-end scenario the 1d
CLOSE cell is "90 (↑ 11%)" — `int((100 - 90) / 90 * 100) = 11`, computed
against the resolved value — not the "90 (↓ -10%)" the spec's formula
predicts; likewise the 1d VOLUME cell is "500K (↑ 100%)", not
"500K (↓ -50%)". -/
theorem C4_counterexample :
    cellAt (digest scenStore "ABC" scenD) 0 3 = some "90 (↑ 11%)" ∧
    cellAt (digest scenStore "ABC" scenD) 1 3 = some "500K (↑ 100%)" ∧
    colsOf (digest scenStore "ABC" scenD) =
      some ["METRIC", "SYMBOL", "Tue 02 Jan 24", "1d", "1m", "1y", "3m", "3y", "6m"] ∧
    ("90 (↑ 11%)" : String) ≠ "90 (↓ -10%)" := by
  exact ⟨by decide, by decide, by decide, by decide⟩

/-- Witness for C4 at the scenario store: the 1d cells as `digest_str`
produces them, and the report's two rows. -/
theorem C4_witness :
    digest_str 90 100 false = "90 (↑ 11%)" ∧
    digest_str 500000 1000000 true = "500K (↑ 100%)" ∧
    scenReport.rows.length = 2 := by
  have h := C4_amended_cells scenStore "ABC" scenD scenReport scenQueries
    (mkBar "ABC" 2024 1 2 100 1000000) []
    (mkBar "ABC" 2024 1 1 90 500000) (mkBar "ABC" 2023 12 3 80 400000)
    (mkBar "ABC" 2023 10 4 70 300000) (mkBar "ABC" 2023 7 6 60 200000)
    (mkBar "ABC" 2023 1 2 50 100000) (mkBar "ABC" 2021 1 2 40 50000)
    [] [] [] [] [] []
    scenEval (by decide) (by decide) (by decide) (by decide) (by decide) (by decide)
    (by decide)
  refine ⟨?_, ?_, by rw [h.1]; rfl⟩
  · exact (h.2 90 100 false (by norm_num)).trans (by decide)
  · exact (h.2 500000 1000000 true (by norm_num)).trans (by decide)

/-- Witness for C5: an empty window yields the empty frame, and the most
recent in-window bar is returned for the 1-day offset window. -/
theorem C5_witness :
    maybe_get_data scenStore "ABC" (scenD + 10) 5 = some [] ∧
    maybe_get_data scenStore "ABC" (scenD - 1) 5 =
      some [mkBar "ABC" 2024 1 1 90 500000] := by
  refine ⟨?_, ?_⟩
  · exact (C5_resolver scenStore "ABC" (scenD + 10) 5).1.mpr (by decide)
  · exact (C5_resolver scenStore "ABC" (scenD - 1) 5).2.2.2
      (mkBar "ABC" 2024 1 1 90 500000)
      (by decide) (by decide) (by decide) (by decide) (by decide) (by decide)

/-- Witness for C6: a date with no stored bar fails immediately with the
as-of DigestError after the single as-of query. -/
theorem C6_witness :
    digest scenStore "ABC" (daysFromCivil 2024 1 3) =
      (.error (.digestError ("Missing market data for as-of-date " ++
        fmtYmd (daysFromCivil 2024 1 3))),
       [("ABC", daysFromCivil 2024 1 3 - 0, daysFromCivil 2024 1 3)]) :=
  C6_asof_missing scenStore "ABC" (daysFromCivil 2024 1 3) (by decide)

/-- Witness for C7 at the scenario store: the six resolved dates are
pairwise distinct and the duplicate guard passes. -/
theorem C7_witness :
    (scenBars.map (fun b => b.MKT_DATE)).Nodup ∧
    (scenBars.map (fun b => b.MKT_DATE)).dedup.length =
      (scenBars.map (fun b => b.MKT_DATE)).length ∧
    ∀ e, (digest scenStore "ABC" scenD).1 = .error e → e ≠ .typeError :=
  C7_duplicate_dates scenStore "ABC" scenD scenBars (by decide)

/-- Witness for C8: the spec's truncation examples — 149 vs base 100 gives
49 (not 50), 150 gives 50, 99 gives -1 with ↓, equal values give → 0 — and
the bounds of the truncated ratio at the first example. -/
theorem C8_witness :
    digest_str 100 149 false = "100 (↑ 49%)" ∧
    digest_str 100 150 false = "100 (↑ 50%)" ∧
    digest_str 100 99 false = "100 (↓ -1%)" ∧
    digest_str 100 100 false = "100 (→ 0%)" ∧
    ((0 : ℚ) ≤ ((149 : ℚ) - 100) / 100 * 100 →
      (pyInt (((149 : ℚ) - 100) / 100 * 100) : ℚ) ≤ ((149 : ℚ) - 100) / 100 * 100 ∧
      ((149 : ℚ) - 100) / 100 * 100 < pyInt (((149 : ℚ) - 100) / 100 * 100) + 1) :=
  ⟨by decide, by decide, by decide, by decide,
   (C8_truncation_direction 100 149 false (by norm_num)).1⟩

/-- Witness for C9: round trip on a concrete store. -/
theorem C9_witness :
    ((MarketDataDAO.select (MarketDataDAO.insert [c9bar] c9store) c9bar.MKT_SYMBOL
      (daysFromCivil 2024 1 1) (daysFromCivil 2024 12 31)).filter
      fun r => r.MKT_DATE == c9bar.MKT_DATE) = [c9bar] ∧
    ((MarketDataDAO.select (MarketDataDAO.insert [c9bar2] (MarketDataDAO.insert [c9bar] c9store))
      c9bar.MKT_SYMBOL (daysFromCivil 2024 1 1) (daysFromCivil 2024 12 31)).filter
      fun r => r.MKT_DATE == c9bar.MKT_DATE) = [c9bar2] ∧
    ((MarketDataDAO.insert [c9bar2] (MarketDataDAO.insert [c9bar] c9store)).filter
      fun r => sameKey r c9bar) = [c9bar2] :=
  C9_upsert_roundtrip c9store c9bar c9bar2 (daysFromCivil 2024 1 1) (daysFromCivil 2024 12 31)
    (by decide) (by decide) (by decide) (by decide) (by decide)

/-- Witness for C10 at the scenario store. -/
theorem C10_witness :
    (maybe_get_data scenStore "ABC" scenD 5).isSome = true ∧
    (maybe_get_data scenStore "ABC" scenD 5 = some [] ↔
      ∀ b ∈ scenStore, ¬(b.MKT_SYMBOL = "ABC" ∧ scenD - 5 ≤ b.MKT_DATE ∧ b.MKT_DATE ≤ scenD)) ∧
    (((offsetConfig scenD).map fun lt => (lt.1, maybe_get_data scenStore "ABC" lt.2 5)).filter
      fun x => x.2.isNone) = [] :=
  C10_never_none scenStore "ABC" scenD 5 scenD

end
